import Mathlib

/-!
Verification of the vagrant step core (`src/steps/vagrant.rs`): status-output
parsing, the temporary power-on guard, and the per-box orchestration loop.

The embedding follows the Rust source closely.  Fallible subprocess calls are
modelled by a boolean oracle `exec : Cmd → Bool` (true = exit success); Rust
panics (`unwrap`, `unreachable!`) are modelled by an explicit `panicked`
outcome, distinct from the `err` outcome produced by `?`-propagation of an
`anyhow::Result` error.
-/

namespace VagrantStep

/-- The `BoxStatus` enum of the source.  The strum derive
`#[strum(serialize_all = "lowercase")]` serializes the variants as
"poweroff", "running", "saved", "aborted". -/
inductive BoxStatus
  | powerOff
  | running
  | saved
  | aborted
  deriving DecidableEq, Repr

/-- The `FromStr` instance derived by strum's `EnumString` with
`serialize_all = "lowercase"`: each token is compared for exact equality with
the lowercase serialization of a variant (strum is case-sensitive unless the
`ascii_case_insensitive` attribute is present, which the source does not use);
no match yields a `VariantNotFound` error, modelled as `none`. -/
def BoxStatus.fromStr (s : String) : Option BoxStatus :=
  if s = "poweroff" then some .powerOff
  else if s = "running" then some .running
  else if s = "saved" then some .saved
  else if s = "aborted" then some .aborted
  else none

/-- `BoxStatus::powered_on`: true only for `Running`. -/
def BoxStatus.powered_on : BoxStatus → Bool
  | .running => true
  | _ => false

/-- The `VagrantBox` struct: box name plus the working directory it was listed
in (`path` borrows the directory string in the source). -/
structure VagrantBox where
  path : String
  name : String
  deriving DecidableEq, Repr

/-- Outcome of a step of the program.  `ok` carries a value; `err` models an
`anyhow::Result` error propagated with `?`; `panicked` models a Rust panic
(`unwrap` on `None`/`Err`, `unreachable!`). -/
inductive StepResult (α : Type)
  | ok (a : α)
  | err (e : String)
  | panicked (msg : String)
  deriving DecidableEq, Repr

/-- Split a character sequence at every character satisfying `p`, keeping
empty pieces, as Rust's `str::split` does ("a\n\nb" gives ["a", "", "b"], ""
gives [""]).  Stated on `List Char` so the kernel can evaluate it on literal
strings via `String.data`. -/
def splitChars (p : Char → Bool) : List Char → List (List Char)
  | [] => [[]]
  | c :: cs =>
    if p c then [] :: splitChars p cs
    else
      match splitChars p cs with
      | [] => [[c]]
      | g :: gs => (c :: g) :: gs

/-- Rust's `str::split_whitespace`: split at whitespace, dropping empty
pieces (so leading, trailing and repeated whitespace is ignored). -/
def splitWhitespace (line : String) : List String :=
  ((splitChars Char.isWhitespace line.data).filter (fun t => !t.isEmpty)).map String.mk

/-- The body of the `map` closure in `Vagrant::get_boxes`, applied to one
retained line: the first whitespace token is the box name
(`elements.next().unwrap()`), the second is the status keyword
(`elements.next().unwrap()` then `BoxStatus::from_str(..).unwrap()`).
A missing token or an unrecognized keyword is a panic, not an error. -/
def parseLine (directory line : String) : StepResult (VagrantBox × BoxStatus) :=
  match splitWhitespace line with
  | [] => .panicked "Option::unwrap on None"
  | name :: rest =>
    match rest with
    | [] => .panicked "Option::unwrap on None"
    | tok :: _ =>
      match BoxStatus.fromStr tok with
      | none => .panicked "Result::unwrap on Err: VariantNotFound"
      | some status => .ok (⟨directory, name⟩, status)

/-- The `take_while` predicate of `get_boxes`: keep a line unless it is empty
(`line.is_empty()`) or starts with a carriage return
(`line.starts_with('\r')`), stated as one match on the first character. -/
def keepLine (line : String) : Bool :=
  match line.data with
  | [] => false
  | c :: _ => !(c = '\r')

/-- The lines of the status output: `output.split('\n')`. -/
def outputLines (output : String) : List String :=
  (splitChars (fun c => c = '\n') output.data).map String.mk

/-- Line selection of `get_boxes`: skip the first two (header) lines and take
lines while `keepLine` holds. -/
def boxLines (output : String) : List String :=
  ((outputLines output).drop 2).takeWhile keepLine

/-- Sequential collection of the mapped lines, panicking at the first line
whose closure panics (as iterator `collect` does in the source). -/
def parseLines (directory : String) : List String → StepResult (List (VagrantBox × BoxStatus))
  | [] => .ok []
  | l :: ls =>
    match parseLine directory l with
    | .panicked m => .panicked m
    | .err e => .err e
    | .ok r =>
      match parseLines directory ls with
      | .panicked m => .panicked m
      | .err e => .err e
      | .ok rs => .ok (r :: rs)

/-- `Vagrant::get_boxes`: run `vagrant status` in the directory
(`check_output`, whose result is passed in as `statusOut`; a failure there is
propagated with `?` as an error), then parse the retained lines. -/
def get_boxes (directory : String) (statusOut : Except String String) :
    StepResult (List (VagrantBox × BoxStatus)) :=
  match statusOut with
  | .error e => .err e
  | .ok output => parseLines directory (boxLines output)

/-- The subcommand match in `TemporaryPowerOn::create`; `none` models the
`unreachable!()` arm for `Running`. -/
def createSubcommand : BoxStatus → Option String
  | .powerOff | .aborted => some "up"
  | .saved => some "resume"
  | .running => none

/-- The subcommand match in `Drop for TemporaryPowerOn`; `none` models the
`unreachable!()` arm for `Running`. -/
def dropSubcommand : BoxStatus → Option String
  | .powerOff | .aborted => some "halt"
  | .saved => some "suspend"
  | .running => none

/-- An invocation of the external vagrant binary: argument list and working
directory. -/
inductive Cmd
  | vagrant (args : List String) (dir : String)
  deriving DecidableEq, Repr

/-- Whether a command is a restore invocation (subcommand "halt" or
"suspend"). -/
def isRestore : Cmd → Bool
  | .vagrant args _ =>
    match args with
    | sub :: _ => sub = "halt" || sub = "suspend"
    | [] => false

/-- The configuration fields read by `topgrade_vagrant_boxes`:
`vagrant_power_on()` (an `Option<bool>`, read with `unwrap_or(true)`) and
`yes()`. -/
structure Config where
  vagrant_power_on : Option Bool
  yes : Bool
  deriving DecidableEq, Repr

/-- Model of `std::path::Path::file_name` on Unix-style UTF-8 paths (the
standard library routine the source calls on the box directory): the last
non-empty, non-"." component, unless the path ends in ".." or has no such
component (root, empty).  A directory whose final component is not valid
UTF-8 is not representable by a Lean `String`; the subsequent
`to_str().unwrap()` panic of the source is folded into the `none` case. -/
def pathFileName (p : String) : Option String :=
  let comps := ((splitChars (fun c => c = '/') p.data).filter
      (fun c => !c.isEmpty && c ≠ ['.'])).map String.mk
  match comps.getLast? with
  | none => none
  | some c => if c = ".." then none else some c

/-- The prefix computation of `topgrade_vagrant_boxes`: for a box named
"default", `PathBuf::from(directory).file_name().unwrap().to_str().unwrap()`;
otherwise the box name.  `none` models the panic of the two unwraps. -/
def prefixOfBox (b : VagrantBox) (directory : String) : Option String :=
  if b.name = "default" then pathFileName directory else some b.name

/-- The remote command string built by `topgrade_vagrant_boxes`:
`format!("env TOPGRADE_PREFIX={} topgrade", prefix)`, with " -y" pushed when
`ctx.config().yes()`. -/
def sshCommandString (pre : String) (cfg : Config) : String :=
  "env TOPGRADE_PREFIX=" ++ pre ++ " topgrade" ++ (if cfg.yes then " -y" else "")

/-- Per-box outcome of one iteration of the inner loop of
`topgrade_vagrant_boxes`: completed, skipped (`continue`), error propagated
with `?` (carrying the failing command), or panic. -/
inductive BoxOutcome
  | ok
  | skipped
  | err (c : Cmd)
  | panicked (msg : String)
  deriving DecidableEq, Repr

/-- The tail of the loop body that runs once any needed guard is held:
compute the prefix (panicking if `file_name`/`to_str` unwrap fails), build the
ssh command, and run it, propagating its failure with `?`. -/
def runTopgrade (exec : Cmd → Bool) (cfg : Config) (directory : String)
    (b : VagrantBox) : List Cmd × BoxOutcome :=
  match prefixOfBox b directory with
  | none => ([], .panicked "Option::unwrap on None")
  | some pre =>
    let c := Cmd.vagrant ["ssh", "-c", sshCommandString pre cfg] directory
    if exec c then ([c], .ok) else ([c], .err c)

/-- `Drop for TemporaryPowerOn`: issue the restore subcommand for the original
status in the box's directory and discard the result (`check_run().ok()`).
Returns the commands issued; the `exec` result is deliberately dropped, so a
restore failure can never influence the outcome. -/
def dropGuard (exec : Cmd → Bool) (b : VagrantBox) (status : BoxStatus) : List Cmd :=
  match dropSubcommand status with
  | none => []
  | some sub =>
    let c := Cmd.vagrant [sub, b.name] b.path
    let _ := exec c
    [c]

/-- One iteration of the per-box loop of `topgrade_vagrant_boxes` for a box
`b` with reported `status`, returning the sequence of vagrant invocations it
issues (in order) and its outcome.  Mirrors the source: a powered-off box is
skipped when the power-on policy is disabled; otherwise
`TemporaryPowerOn::create` issues the bring-up command (its failure propagates
with `?` before any guard exists); the guard, once created, is dropped on
every exit path of the remainder of the body — normal completion, `?` error,
or panic unwind — appending exactly one restore command. -/
def processBox (exec : Cmd → Bool) (cfg : Config) (directory : String)
    (b : VagrantBox) (status : BoxStatus) : List Cmd × BoxOutcome :=
  if !status.powered_on then
    if !(cfg.vagrant_power_on.getD true) then ([], .skipped)
    else
      match createSubcommand status with
      | none => ([], .panicked "entered unreachable code")
      | some sub =>
        let upCmd := Cmd.vagrant [sub, b.name] b.path
        if exec upCmd then
          let res := runTopgrade exec cfg directory b
          (upCmd :: (res.1 ++ dropGuard exec b status), res.2)
        else ([upCmd], .err upCmd)
  else
    runTopgrade exec cfg directory b

/-- The inner loop of `topgrade_vagrant_boxes` over the boxes of one
directory: `continue` on skip, `?`-propagation on error, unwind on panic. -/
def processBoxes (exec : Cmd → Bool) (cfg : Config) (directory : String) :
    List (VagrantBox × BoxStatus) → List Cmd × BoxOutcome
  | [] => ([], .ok)
  | (b, s) :: rest =>
    let res := processBox exec cfg directory b s
    match res.2 with
    | .ok =>
      let res2 := processBoxes exec cfg directory rest
      (res.1 ++ res2.1, res2.2)
    | .skipped =>
      let res2 := processBoxes exec cfg directory rest
      (res.1 ++ res2.1, res2.2)
    | .err c => (res.1, .err c)
    | .panicked m => (res.1, .panicked m)

/-! Helper lemmas shared by the claim theorems. -/

theorem createSubcommand_cases (status : BoxStatus) (up : String)
    (h : createSubcommand status = some up) :
    (status = .powerOff ∨ status = .aborted) ∧ up = "up" ∨
      status = .saved ∧ up = "resume" := by
  cases status <;> simp [createSubcommand] at h <;> simp [h]

theorem dropSubcommand_cases (status : BoxStatus) (restore : String)
    (h : dropSubcommand status = some restore) :
    (status = .powerOff ∨ status = .aborted) ∧ restore = "halt" ∨
      status = .saved ∧ restore = "suspend" := by
  cases status <;> simp [dropSubcommand] at h <;> simp [h]

theorem runTopgrade_eq (exec : Cmd → Bool) (cfg : Config) (directory : String)
    (b : VagrantBox) (pre : String) (hpre : prefixOfBox b directory = some pre) :
    runTopgrade exec cfg directory b
      = ([Cmd.vagrant ["ssh", "-c", sshCommandString pre cfg] directory],
         if exec (Cmd.vagrant ["ssh", "-c", sshCommandString pre cfg] directory) then .ok
         else .err (Cmd.vagrant ["ssh", "-c", sshCommandString pre cfg] directory)) := by
  unfold runTopgrade
  rw [hpre]
  by_cases h : exec (Cmd.vagrant ["ssh", "-c", sshCommandString pre cfg] directory) <;>
    simp [h]

theorem dropGuard_eq (exec : Cmd → Bool) (b : VagrantBox) (status : BoxStatus)
    (restore : String) (hcd : dropSubcommand status = some restore) :
    dropGuard exec b status = [Cmd.vagrant [restore, b.name] b.path] := by
  unfold dropGuard
  rw [hcd]

theorem processBox_guarded (exec : Cmd → Bool) (cfg : Config) (directory : String)
    (b : VagrantBox) (status : BoxStatus) (up : String)
    (hcu : createSubcommand status = some up)
    (hoff : status.powered_on = false)
    (hpol : cfg.vagrant_power_on.getD true = true)
    (hup : exec (Cmd.vagrant [up, b.name] b.path) = true) :
    processBox exec cfg directory b status
      = (Cmd.vagrant [up, b.name] b.path ::
          ((runTopgrade exec cfg directory b).1 ++ dropGuard exec b status),
         (runTopgrade exec cfg directory b).2) := by
  unfold processBox
  rw [hoff, hpol, hcu]
  simp [hup]

/-! Claim theorems. -/

/-- C1: for a guard over a box whose original state is PoweredOff or Aborted,
creation issues the "up" subcommand and release issues "halt"; for original
state Saved, creation issues "resume" and release issues "suspend"; the
commands appear in that order in the box's invocation trace, and the restore
command appears exactly once, whether the bracketed remote action succeeds or
fails (`exec` is unconstrained on the ssh command). -/
theorem c1_guard_bracket (exec : Cmd → Bool) (cfg : Config) (directory : String)
    (b : VagrantBox) (status : BoxStatus) (up restore pre : String)
    (hcu : createSubcommand status = some up)
    (hcd : dropSubcommand status = some restore)
    (hoff : status.powered_on = false)
    (hpol : cfg.vagrant_power_on.getD true = true)
    (hup : exec (Cmd.vagrant [up, b.name] b.path) = true)
    (hpre : prefixOfBox b directory = some pre) :
    ((status = .powerOff ∨ status = .aborted) → up = "up" ∧ restore = "halt") ∧
    (status = .saved → up = "resume" ∧ restore = "suspend") ∧
    (processBox exec cfg directory b status).1
      = [Cmd.vagrant [up, b.name] b.path,
         Cmd.vagrant ["ssh", "-c", sshCommandString pre cfg] directory,
         Cmd.vagrant [restore, b.name] b.path] ∧
    ((processBox exec cfg directory b status).1.filter isRestore).length = 1 := by
  have hc := createSubcommand_cases status up hcu
  have hd := dropSubcommand_cases status restore hcd
  have htrace : (processBox exec cfg directory b status).1
      = [Cmd.vagrant [up, b.name] b.path,
         Cmd.vagrant ["ssh", "-c", sshCommandString pre cfg] directory,
         Cmd.vagrant [restore, b.name] b.path] := by
    rw [processBox_guarded exec cfg directory b status up hcu hoff hpol hup,
        runTopgrade_eq exec cfg directory b pre hpre,
        dropGuard_eq exec b status restore hcd]
    simp
  refine ⟨?_, ?_, htrace, ?_⟩
  · rintro (h | h) <;> subst h <;>
      simp [createSubcommand] at hcu <;> simp [dropSubcommand] at hcd <;>
      exact ⟨hcu.symm, hcd.symm⟩
  · rintro h
    subst h
    simp [createSubcommand] at hcu
    simp [dropSubcommand] at hcd
    exact ⟨hcu.symm, hcd.symm⟩
  · rw [htrace]
    rcases hc with ⟨-, h⟩ | ⟨-, h⟩ <;> rcases hd with ⟨-, h2⟩ | ⟨-, h2⟩ <;>
      subst h <;> subst h2 <;> simp [isRestore]

/-- C1 witness: a powered-off box "b1" in "/vm/a" with a succeeding bring-up
gives the trace up, ssh, halt. -/
theorem c1_guard_bracket_witness :
    ((BoxStatus.powerOff = BoxStatus.powerOff ∨ BoxStatus.powerOff = BoxStatus.aborted) →
        "up" = "up" ∧ "halt" = "halt") ∧
    (BoxStatus.powerOff = BoxStatus.saved → "up" = "resume" ∧ "halt" = "suspend") ∧
    (processBox (fun _ => true) ⟨none, false⟩ "/vm/a" ⟨"/vm/a", "b1"⟩ .powerOff).1
      = [Cmd.vagrant ["up", "b1"] "/vm/a",
         Cmd.vagrant ["ssh", "-c", sshCommandString "b1" ⟨none, false⟩] "/vm/a",
         Cmd.vagrant ["halt", "b1"] "/vm/a"] ∧
    ((processBox (fun _ => true) ⟨none, false⟩ "/vm/a" ⟨"/vm/a", "b1"⟩ .powerOff).1.filter
        isRestore).length = 1 :=
  c1_guard_bracket (fun _ => true) ⟨none, false⟩ "/vm/a" ⟨"/vm/a", "b1"⟩ .powerOff
    "up" "halt" "b1" (by decide) (by decide) (by decide) (by decide) (by decide) (by decide)

/-- C4: when the bring-up succeeded and the remote (ssh) command fails, the
iteration's outcome is exactly the ssh command's error — independent of
whether the restore invocation issued at guard release succeeds or fails
(`exec` is unconstrained on the restore command) — and the restore command is
issued exactly once. -/
theorem c4_restore_failure_swallowed (exec : Cmd → Bool) (cfg : Config)
    (directory : String) (b : VagrantBox) (status : BoxStatus) (up restore pre : String)
    (hcu : createSubcommand status = some up)
    (hcd : dropSubcommand status = some restore)
    (hoff : status.powered_on = false)
    (hpol : cfg.vagrant_power_on.getD true = true)
    (hup : exec (Cmd.vagrant [up, b.name] b.path) = true)
    (hpre : prefixOfBox b directory = some pre)
    (hssh : exec (Cmd.vagrant ["ssh", "-c", sshCommandString pre cfg] directory) = false) :
    processBox exec cfg directory b status
      = ([Cmd.vagrant [up, b.name] b.path,
          Cmd.vagrant ["ssh", "-c", sshCommandString pre cfg] directory,
          Cmd.vagrant [restore, b.name] b.path],
         .err (Cmd.vagrant ["ssh", "-c", sshCommandString pre cfg] directory)) ∧
    ((processBox exec cfg directory b status).1.filter isRestore).length = 1 := by
  have hc := createSubcommand_cases status up hcu
  have heq : processBox exec cfg directory b status
      = ([Cmd.vagrant [up, b.name] b.path,
          Cmd.vagrant ["ssh", "-c", sshCommandString pre cfg] directory,
          Cmd.vagrant [restore, b.name] b.path],
         .err (Cmd.vagrant ["ssh", "-c", sshCommandString pre cfg] directory)) := by
    rw [processBox_guarded exec cfg directory b status up hcu hoff hpol hup,
        runTopgrade_eq exec cfg directory b pre hpre,
        dropGuard_eq exec b status restore hcd, hssh]
    simp
  refine ⟨heq, ?_⟩
  rw [heq]
  have hd := dropSubcommand_cases status restore hcd
  rcases hc with ⟨-, h⟩ | ⟨-, h⟩ <;> rcases hd with ⟨-, h2⟩ | ⟨-, h2⟩ <;>
    subst h <;> subst h2 <;> simp [isRestore]

/-- C4 witness: box "b1" saved, bring-up succeeds, ssh fails, restore fails
(the oracle succeeds only on the resume command); the outcome is the ssh
error and the suspend command is issued exactly once. -/
theorem c4_restore_failure_swallowed_witness :
    processBox (fun c => c = .vagrant ["resume", "b1"] "/vm/a") ⟨none, false⟩ "/vm/a"
        ⟨"/vm/a", "b1"⟩ .saved
      = ([Cmd.vagrant ["resume", "b1"] "/vm/a",
          Cmd.vagrant ["ssh", "-c", sshCommandString "b1" ⟨none, false⟩] "/vm/a",
          Cmd.vagrant ["suspend", "b1"] "/vm/a"],
         .err (Cmd.vagrant ["ssh", "-c", sshCommandString "b1" ⟨none, false⟩] "/vm/a")) ∧
    ((processBox (fun c => c = .vagrant ["resume", "b1"] "/vm/a") ⟨none, false⟩ "/vm/a"
        ⟨"/vm/a", "b1"⟩ .saved).1.filter isRestore).length = 1 :=
  c4_restore_failure_swallowed (fun c => c = .vagrant ["resume", "b1"] "/vm/a")
    ⟨none, false⟩ "/vm/a" ⟨"/vm/a", "b1"⟩ .saved "resume" "suspend" "b1"
    (by decide) (by decide) (by decide) (by decide) (by decide) (by decide) (by decide)

/-- C5: when the bring-up command fails during guard creation, the iteration
issues only that command and propagates its error; in particular no restore
command is ever issued for the box. -/
theorem c5_no_guard_on_failed_bringup (exec : Cmd → Bool) (cfg : Config)
    (directory : String) (b : VagrantBox) (status : BoxStatus) (up : String)
    (hcu : createSubcommand status = some up)
    (hoff : status.powered_on = false)
    (hpol : cfg.vagrant_power_on.getD true = true)
    (hup : exec (Cmd.vagrant [up, b.name] b.path) = false) :
    processBox exec cfg directory b status
      = ([Cmd.vagrant [up, b.name] b.path], .err (Cmd.vagrant [up, b.name] b.path)) ∧
    (processBox exec cfg directory b status).1.filter isRestore = [] := by
  have heq : processBox exec cfg directory b status
      = ([Cmd.vagrant [up, b.name] b.path], .err (Cmd.vagrant [up, b.name] b.path)) := by
    unfold processBox
    rw [hoff, hpol, hcu]
    simp [hup]
  refine ⟨heq, ?_⟩
  rw [heq]
  rcases createSubcommand_cases status up hcu with ⟨-, h⟩ | ⟨-, h⟩ <;> subst h <;>
    simp [isRestore]

/-- C5 witness: box "b1" aborted, every command fails; the trace is only the
up command, its error propagates, and no restore is issued. -/
theorem c5_no_guard_on_failed_bringup_witness :
    processBox (fun _ => false) ⟨none, false⟩ "/vm/a" ⟨"/vm/a", "b1"⟩ .aborted
      = ([Cmd.vagrant ["up", "b1"] "/vm/a"], .err (Cmd.vagrant ["up", "b1"] "/vm/a")) ∧
    (processBox (fun _ => false) ⟨none, false⟩ "/vm/a" ⟨"/vm/a", "b1"⟩ .aborted).1.filter
        isRestore = [] :=
  c5_no_guard_on_failed_bringup (fun _ => false) ⟨none, false⟩ "/vm/a" ⟨"/vm/a", "b1"⟩
    .aborted "up" (by decide) (by decide) (by decide) (by decide)

/-- C7: `powered_on` returns true exactly for Running; for a box reported
Running the loop iteration constructs no guard, and its invocation trace is
just the ssh command — it contains no bring-up and no restore command (the
guard subcommand matches are `unreachable!`, modelled as `none`). -/
theorem c7_running_no_guard (exec : Cmd → Bool) (cfg : Config) (directory : String)
    (b : VagrantBox) (pre : String)
    (hpre : prefixOfBox b directory = some pre) :
    (∀ s : BoxStatus, s.powered_on = true ↔ s = .running) ∧
    createSubcommand .running = none ∧
    dropSubcommand .running = none ∧
    (processBox exec cfg directory b .running).1
      = [Cmd.vagrant ["ssh", "-c", sshCommandString pre cfg] directory] ∧
    (processBox exec cfg directory b .running).1.filter isRestore = [] := by
  have htrace : (processBox exec cfg directory b .running).1
      = [Cmd.vagrant ["ssh", "-c", sshCommandString pre cfg] directory] := by
    unfold processBox
    rw [runTopgrade_eq exec cfg directory b pre hpre]
    simp [BoxStatus.powered_on]
  refine ⟨?_, rfl, rfl, htrace, ?_⟩
  · intro s
    cases s <;> simp [BoxStatus.powered_on]
  · rw [htrace]
    simp [isRestore]

/-- C7 witness: a running box "b1" in "/vm/a" yields the single ssh
invocation and an empty restore trace. -/
theorem c7_running_no_guard_witness :
    (∀ s : BoxStatus, s.powered_on = true ↔ s = .running) ∧
    createSubcommand .running = none ∧
    dropSubcommand .running = none ∧
    (processBox (fun _ => true) ⟨none, false⟩ "/vm/a" ⟨"/vm/a", "b1"⟩ .running).1
      = [Cmd.vagrant ["ssh", "-c", sshCommandString "b1" ⟨none, false⟩] "/vm/a"] ∧
    (processBox (fun _ => true) ⟨none, false⟩ "/vm/a" ⟨"/vm/a", "b1"⟩ .running).1.filter
        isRestore = [] :=
  c7_running_no_guard (fun _ => true) ⟨none, false⟩ "/vm/a" ⟨"/vm/a", "b1"⟩ "b1" (by decide)

/-- C8: for a non-running box under a disabled power-on policy, the iteration
issues no command at all (in particular no ssh command) and is skipped, the
loop continues with the remaining boxes unchanged, and an absent policy flag
(`None`, read with `unwrap_or(true)`) behaves exactly like an enabled one. -/
theorem c8_policy_skip (exec : Cmd → Bool) (yes : Bool) (directory : String)
    (b : VagrantBox) (status : BoxStatus)
    (rest : List (VagrantBox × BoxStatus))
    (hoff : status.powered_on = false) :
    processBox exec ⟨some false, yes⟩ directory b status = ([], .skipped) ∧
    processBoxes exec ⟨some false, yes⟩ directory ((b, status) :: rest)
      = processBoxes exec ⟨some false, yes⟩ directory rest ∧
    (∀ cfg : Config, cfg.vagrant_power_on = none →
      ∀ (exec2 : Cmd → Bool) (d2 : String) (b2 : VagrantBox) (s2 : BoxStatus),
        processBox exec2 cfg d2 b2 s2
          = processBox exec2 ⟨some true, cfg.yes⟩ d2 b2 s2) := by
  have hskip : processBox exec ⟨some false, yes⟩ directory b status = ([], .skipped) := by
    unfold processBox
    rw [hoff]
    simp
  refine ⟨hskip, ?_, ?_⟩
  · conv_lhs => rw [processBoxes]
    rw [hskip]
    simp
  · rintro ⟨po, y⟩ hnone exec2 d2 b2 s2
    simp only at hnone
    subst hnone
    rfl

/-- C8 witness: a powered-off box under a disabled policy is skipped with an
empty trace, the loop is unchanged by it, and a configuration without the
flag equals one with the flag set to true. -/
theorem c8_policy_skip_witness :
    processBox (fun _ => true) ⟨some false, true⟩ "/vm/a" ⟨"/vm/a", "b1"⟩ .powerOff
      = ([], .skipped) ∧
    processBoxes (fun _ => true) ⟨some false, true⟩ "/vm/a"
        ((⟨"/vm/a", "b1"⟩, .powerOff) :: [(⟨"/vm/a", "b2"⟩, .running)])
      = processBoxes (fun _ => true) ⟨some false, true⟩ "/vm/a"
          [(⟨"/vm/a", "b2"⟩, .running)] ∧
    (∀ cfg : Config, cfg.vagrant_power_on = none →
      ∀ (exec2 : Cmd → Bool) (d2 : String) (b2 : VagrantBox) (s2 : BoxStatus),
        processBox exec2 cfg d2 b2 s2
          = processBox exec2 ⟨some true, cfg.yes⟩ d2 b2 s2) :=
  c8_policy_skip (fun _ => true) true "/vm/a" ⟨"/vm/a", "b1"⟩ .powerOff
    [(⟨"/vm/a", "b2"⟩, .running)] (by decide)

/-- C2 counterexample: the claim says status tokens are matched
case-insensitively and that unknown tokens make `get_boxes` return a parse
error rather than crash.  On the code, the token "RUNNING" is not recognized
(strum's derived match is case-sensitive on the lowercase serializations) and
`get_boxes` panics on it (`from_str(..).unwrap()`), returning no error. -/
theorem c2_counterexample :
    BoxStatus.fromStr "RUNNING" = none ∧
    BoxStatus.fromStr "Poweroff" = none ∧
    get_boxes "/vm/a" (.ok "h1\nh2\nbox1 RUNNING\n\nfooter")
      = .panicked "Result::unwrap on Err: VariantNotFound" := by
  refine ⟨by decide, by decide, by decide⟩

/-- C2 amended: the status token is matched case-sensitively against the four
exact lowercase names "poweroff", "running", "saved", "aborted"; a line whose
second whitespace token is one of these parses to the corresponding status,
and for any other token (any other casing included) the line makes the parser
panic via `unwrap` on the `VariantNotFound` error — no error value is
returned. -/
theorem c2_amended (directory line name tok : String) (rest : List String)
    (hsplit : splitWhitespace line = name :: tok :: rest) :
    ((BoxStatus.fromStr tok).isSome
        ↔ tok ∈ ["poweroff", "running", "saved", "aborted"]) ∧
    (∀ s, BoxStatus.fromStr tok = some s →
      parseLine directory line = .ok (⟨directory, name⟩, s)) ∧
    (BoxStatus.fromStr tok = none →
      parseLine directory line = .panicked "Result::unwrap on Err: VariantNotFound") := by
  refine ⟨?_, ?_, ?_⟩
  · unfold BoxStatus.fromStr
    split_ifs <;> simp_all
  · intro s hs
    unfold parseLine
    rw [hsplit]
    simp [hs]
  · intro hs
    unfold parseLine
    rw [hsplit]
    simp [hs]

/-- C2 amended witness: the line "box1 RUNNING" splits into the name "box1"
and token "RUNNING", which matches no variant, so parsing panics. -/
theorem c2_amended_witness :
    ((BoxStatus.fromStr "RUNNING").isSome
        ↔ "RUNNING" ∈ ["poweroff", "running", "saved", "aborted"]) ∧
    (∀ s, BoxStatus.fromStr "RUNNING" = some s →
      parseLine "/vm/a" "box1 RUNNING" = .ok (⟨"/vm/a", "box1"⟩, s)) ∧
    (BoxStatus.fromStr "RUNNING" = none →
      parseLine "/vm/a" "box1 RUNNING"
        = .panicked "Result::unwrap on Err: VariantNotFound") :=
  c2_amended "/vm/a" "box1 RUNNING" "box1" "RUNNING" [] (by decide)

/-- C3 counterexample: the claim says a retained line with fewer than two
whitespace tokens makes `get_boxes` return a parse error naming the line and
directory.  On the code, a status output whose third line is the single token
"onlyname" makes `get_boxes` panic (`elements.next().unwrap()` on `None`);
no error is returned. -/
theorem c3_counterexample :
    get_boxes "/vm/a" (.ok "head1\nhead2\nonlyname\n\n")
      = .panicked "Option::unwrap on None" := by
  decide

/-- C3 amended: for every retained status line with fewer than two
whitespace-separated tokens, the parser panics via `unwrap` on `None` (for
the missing name or status token) rather than returning an error. -/
theorem c3_amended (directory line : String)
    (hshort : (splitWhitespace line).length < 2) :
    parseLine directory line = .panicked "Option::unwrap on None" := by
  rcases h : splitWhitespace line with _ | ⟨n, _ | ⟨t, r⟩⟩
  · unfold parseLine
    rw [h]
  · unfold parseLine
    rw [h]
  · rw [h] at hshort
    simp only [List.length_cons] at hshort
    exact absurd hshort (by omega)

/-- C3 amended witness: the one-token line "onlyname" makes the parser
panic. -/
theorem c3_amended_witness :
    parseLine "/vm/a" "onlyname" = .panicked "Option::unwrap on None" :=
  c3_amended "/vm/a" "onlyname" (by decide)

theorem takeWhile_middle {α : Type} (p : α → Bool) (xs : List α) (y : α) (ys : List α)
    (hx : ∀ x ∈ xs, p x = true) (hy : p y = false) :
    (xs ++ y :: ys).takeWhile p = xs := by
  induction xs with
  | nil => simp [List.takeWhile_cons, hy]
  | cons a as ih =>
    simp only [List.cons_append, List.takeWhile_cons]
    rw [hx a (by simp)]
    simp only [if_true]
    rw [ih (fun x hx2 => hx x (by simp [hx2]))]

theorem parseLines_ok (directory : String) (ls : List String)
    (h : ∀ l ∈ ls, ∃ r, parseLine directory l = .ok r) :
    ∃ rs, parseLines directory ls = .ok rs ∧ rs.length = ls.length ∧
      ∀ (i : Nat) (hi : i < ls.length) (hi2 : i < rs.length),
        parseLine directory (ls.get ⟨i, hi⟩) = .ok (rs.get ⟨i, hi2⟩) := by
  induction ls with
  | nil => exact ⟨[], rfl, rfl, fun i hi => absurd hi (by simp)⟩
  | cons l ls ih =>
    obtain ⟨r, hr⟩ := h l (by simp)
    obtain ⟨rs, hrs, hlen, hidx⟩ := ih (fun x hx => h x (by simp [hx]))
    refine ⟨r :: rs, ?_, by simp [hlen], ?_⟩
    · unfold parseLines
      rw [hr, hrs]
    · intro i hi hi2
      cases i with
      | zero => simpa using hr
      | succ j =>
        have hj : j < ls.length := by
          simpa [Nat.succ_lt_succ_iff] using hi
        have hj2 : j < rs.length := by
          rw [hlen]
          exact hj
        exact hidx j hj hj2

/-- C6: for every status output whose lines are exactly two header lines,
then box lines `bls` (each retained by the table filter and individually
parseable), then a terminator line that is empty or begins with a carriage
return, then arbitrary trailing lines, `get_boxes` succeeds and returns
exactly one record per box line, in listing order. -/
theorem c6_parser_shape (directory output : String) (hdr1 hdr2 term : String)
    (bls rest : List String)
    (hsplit : outputLines output = hdr1 :: hdr2 :: (bls ++ term :: rest))
    (hkeep : ∀ l ∈ bls, keepLine l = true)
    (hterm : term.data = [] ∨ ∃ cs, term.data = '\r' :: cs)
    (hparse : ∀ l ∈ bls, ∃ r, parseLine directory l = .ok r) :
    ∃ rs, get_boxes directory (.ok output) = .ok rs ∧ rs.length = bls.length ∧
      ∀ (i : Nat) (hi : i < bls.length) (hi2 : i < rs.length),
        parseLine directory (bls.get ⟨i, hi⟩) = .ok (rs.get ⟨i, hi2⟩) := by
  have hterm2 : keepLine term = false := by
    unfold keepLine
    rcases hterm with h | ⟨cs, h⟩ <;> simp [h]
  have hbox : boxLines output = bls := by
    unfold boxLines
    rw [hsplit]
    have hdrop : (hdr1 :: hdr2 :: (bls ++ term :: rest)).drop 2 = bls ++ term :: rest := rfl
    rw [hdrop]
    exact takeWhile_middle keepLine bls term rest hkeep hterm2
  have hget : get_boxes directory (.ok output) = parseLines directory bls := by
    show parseLines directory (boxLines output) = parseLines directory bls
    rw [hbox]
  rw [hget]
  exact parseLines_ok directory bls hparse

/-- C6 witness: a concrete status output with two header lines, two box
lines, an empty terminator and a trailing footer parses to exactly two
records, in listing order. -/
theorem c6_parser_shape_witness :
    ∃ rs, get_boxes "/vm/a" (.ok "h1\nh2\nbox1 running\nbox2 poweroff\n\nfooter")
        = .ok rs ∧
      rs.length = (["box1 running", "box2 poweroff"] : List String).length ∧
      ∀ (i : Nat) (hi : i < (["box1 running", "box2 poweroff"] : List String).length)
        (hi2 : i < rs.length),
        parseLine "/vm/a" ((["box1 running", "box2 poweroff"] : List String).get ⟨i, hi⟩)
          = .ok (rs.get ⟨i, hi2⟩) :=
  c6_parser_shape "/vm/a" "h1\nh2\nbox1 running\nbox2 poweroff\n\nfooter" "h1" "h2" ""
    ["box1 running", "box2 poweroff"] ["footer"]
    (by decide) (by decide) (Or.inl (by decide))
    (by
      intro l hl
      simp only [List.mem_cons, List.not_mem_nil, or_false] at hl
      rcases hl with h | h <;> subst h
      · exact ⟨(⟨"/vm/a", "box1"⟩, .running), by decide⟩
      · exact ⟨(⟨"/vm/a", "box2"⟩, .powerOff), by decide⟩)

/-- C9: with `pre` the prefix computed by the spec's rule — the last path
component of the box's directory when the box name is the literal "default",
the box name itself otherwise — the loop iteration invokes exactly the remote
command `ssh -c "env TOPGRADE_PREFIX=<pre> topgrade"`, with " -y" appended
exactly when the configuration requests non-interactive mode; for a running
box the trace is that single invocation, and for a powered-off box being
brought up the same ssh command sits between the up and halt commands. -/
theorem c9_command_construction (exec : Cmd → Bool) (cfg : Config)
    (directory : String) (b : VagrantBox) (pre : String)
    (hpre : (if b.name = "default" then pathFileName directory else some b.name)
      = some pre) :
    (processBox exec cfg directory b .running).1
      = [Cmd.vagrant ["ssh", "-c",
          "env TOPGRADE_PREFIX=" ++ pre ++ " topgrade"
            ++ (if cfg.yes then " -y" else "")] directory] ∧
    (cfg.vagrant_power_on.getD true = true →
      exec (Cmd.vagrant ["up", b.name] b.path) = true →
      (processBox exec cfg directory b .powerOff).1
        = [Cmd.vagrant ["up", b.name] b.path,
           Cmd.vagrant ["ssh", "-c",
             "env TOPGRADE_PREFIX=" ++ pre ++ " topgrade"
               ++ (if cfg.yes then " -y" else "")] directory,
           Cmd.vagrant ["halt", b.name] b.path]) := by
  have hpre2 : prefixOfBox b directory = some pre := hpre
  have hstr : sshCommandString pre cfg
      = "env TOPGRADE_PREFIX=" ++ pre ++ " topgrade" ++ (if cfg.yes then " -y" else "") :=
    rfl
  constructor
  · unfold processBox
    rw [runTopgrade_eq exec cfg directory b pre hpre2]
    simp [BoxStatus.powered_on, hstr]
  · intro hpol hup
    rw [processBox_guarded exec cfg directory b .powerOff "up" rfl rfl hpol hup,
        runTopgrade_eq exec cfg directory b pre hpre2,
        dropGuard_eq exec b .powerOff "halt" rfl]
    simp [hstr]

/-- C9 witness: the box "default" in directory "/vm/a" gets prefix "a" (the
last path component) and, non-interactively, the command string
"env TOPGRADE_PREFIX=a topgrade -y". -/
theorem c9_command_construction_witness :
    (processBox (fun _ => true) ⟨none, true⟩ "/vm/a" ⟨"/vm/a", "default"⟩ .running).1
      = [Cmd.vagrant ["ssh", "-c",
          "env TOPGRADE_PREFIX=" ++ "a" ++ " topgrade"
            ++ (if (Config.mk none true).yes then " -y" else "")] "/vm/a"] ∧
    ((Config.mk none true).vagrant_power_on.getD true = true →
      (fun _ => true) (Cmd.vagrant ["up", "default"] "/vm/a") = true →
      (processBox (fun _ => true) ⟨none, true⟩ "/vm/a" ⟨"/vm/a", "default"⟩ .powerOff).1
        = [Cmd.vagrant ["up", "default"] "/vm/a",
           Cmd.vagrant ["ssh", "-c",
             "env TOPGRADE_PREFIX=" ++ "a" ++ " topgrade"
               ++ (if (Config.mk none true).yes then " -y" else "")] "/vm/a",
           Cmd.vagrant ["halt", "default"] "/vm/a"]) :=
  c9_command_construction (fun _ => true) ⟨none, true⟩ "/vm/a" ⟨"/vm/a", "default"⟩ "a"
    (by decide)

/-- C10: prefix computation can panic at the public interface: for a box
named "default" in a directory with no final normal path component (for
example "/", or a path ending in ".."), the loop iteration panics (unwrap on
the `None` returned by `file_name`) instead of producing an error outcome,
and the panic aborts the whole per-directory loop. -/
theorem c10_default_box_panics (exec : Cmd → Bool) (cfg : Config)
    (directory : String) (b : VagrantBox)
    (hname : b.name = "default")
    (hfn : pathFileName directory = none) :
    pathFileName "/" = none ∧
    pathFileName "/vm/.." = none ∧
    processBox exec cfg directory b .running
      = ([], .panicked "Option::unwrap on None") ∧
    (∀ rest, processBoxes exec cfg directory ((b, .running) :: rest)
      = ([], .panicked "Option::unwrap on None")) := by
  have hmain : processBox exec cfg directory b .running
      = ([], .panicked "Option::unwrap on None") := by
    unfold processBox
    simp only [BoxStatus.powered_on, Bool.not_true, Bool.false_eq_true, if_false]
    unfold runTopgrade prefixOfBox
    rw [hname]
    simp [hfn]
  refine ⟨by decide, by decide, hmain, ?_⟩
  intro rest
  conv_lhs => rw [processBoxes]
  rw [hmain]

/-- C10 witness: the box "default" of the root directory "/" makes the run
panic. -/
theorem c10_default_box_panics_witness :
    pathFileName "/" = none ∧
    pathFileName "/vm/.." = none ∧
    processBox (fun _ => true) ⟨none, false⟩ "/" ⟨"/", "default"⟩ .running
      = ([], .panicked "Option::unwrap on None") ∧
    (∀ rest, processBoxes (fun _ => true) ⟨none, false⟩ "/" ((⟨"/", "default"⟩, .running) :: rest)
      = ([], .panicked "Option::unwrap on None")) :=
  c10_default_box_panics (fun _ => true) ⟨none, false⟩ "/" ⟨"/", "default"⟩
    (by decide) (by decide)

end VagrantStep
